import Mathlib

/-!
Shallow embedding of `src/script.js` (LiveCTD), a client-side wedding
countdown script, together with proofs of the specified properties of its
countdown renderer `updateCountdown`, its image cache-busting step
`bustImageCache`, and its decorative-particle generator `createParticles`.

Time instants are modelled as integers (milliseconds, as produced by a JS
`Date` subtraction).  A display slot set (the JS object `elements`) is an
association list from slot names to element references that may be null
(`none`); writing `textContent` is modelled by returning the updated list.
-/

namespace LiveCTD

/-- A writable text target: the one mutable field of a DOM element that the
countdown renderer touches. -/
structure Elem where
  textContent : String
deriving DecidableEq

/-- The slot set passed to the renderer: keys mapped to possibly-null
element references.  A key absent from the object is simply not a member of
the list. -/
abbrev Elements := List (String × Option Elem)

/-- The fixed completion marker written once a target instant has passed
(source line 21). -/
def marker : String := "🎉"

/-- Milliseconds per day, `1000 * 60 * 60 * 24` (source line 26). -/
def msPerDay : Nat := 1000 * 60 * 60 * 24

/-- Milliseconds per hour, `1000 * 60 * 60` (source line 27). -/
def msPerHour : Nat := 1000 * 60 * 60

/-- Milliseconds per minute, `1000 * 60` (source line 28). -/
def msPerMinute : Nat := 1000 * 60

/-- `Math.floor(diff / (1000 * 60 * 60 * 24))` for a positive `diff`
(source line 26). -/
def daysOf (diff : Nat) : Nat := diff / msPerDay

/-- `Math.floor((diff % (1000 * 60 * 60 * 24)) / (1000 * 60 * 60))`
(source line 27). -/
def hoursOf (diff : Nat) : Nat := diff % msPerDay / msPerHour

/-- `Math.floor((diff % (1000 * 60 * 60)) / (1000 * 60))` (source line 28). -/
def minutesOf (diff : Nat) : Nat := diff % msPerHour / msPerMinute

/-- `Math.floor((diff % (1000 * 60)) / 1000)` (source line 29). -/
def secondsOf (diff : Nat) : Nat := diff % msPerMinute / 1000

/-- JS `String.prototype.padStart(n, c)` for a single-character pad: pads
the string at the start with `c` up to length `n`, never truncating. -/
def padStart (s : String) (n : Nat) (c : Char) : String :=
  if n ≤ s.length then s else String.mk (List.replicate (n - s.length) c) ++ s

/-- `String(v).padStart(2, '0')`, the formatting applied to every computed
unit value (source lines 31 to 34). -/
def fmtUnit (v : Nat) : String := padStart (toString v) 2 '0'

/-- `if (elements.key) elements.key.textContent = v`: update the element
stored under `key` when it is present and non-null, otherwise do nothing
(source lines 31 to 34, one call per unit). -/
def setText (es : Elements) (key v : String) : Elements :=
  es.map fun p =>
    if p.1 = key then (p.1, p.2.map fun el => { el with textContent := v }) else p

/-- The countdown renderer `updateCountdown(targetDate, elements)` (source
lines 15 to 35).  `now` is the freshly sampled current time; the DOM writes
are modelled by returning the updated slot set. -/
def updateCountdown (targetDate now : Int) (elements : Elements) : Elements :=
  let diff := targetDate - now
  if diff ≤ 0 then
    elements.map fun p => (p.1, p.2.map fun el => { el with textContent := marker })
  else
    let d := diff.toNat
    let e1 := setText elements "days" (fmtUnit (daysOf d))
    let e2 := setText e1 "hours" (fmtUnit (hoursOf d))
    let e3 := setText e2 "minutes" (fmtUnit (minutesOf d))
    let e4 := setText e3 "seconds" (fmtUnit (secondsOf d))
    e4

/-- What one call of the renderer does to a single entry of the slot set:
in the elapsed branch every non-null reference receives the marker; in the
numeric branch exactly the four unit keys receive their formatted values
and every other entry is left unchanged. -/
def renderEntry (targetDate now : Int) (p : String × Option Elem) :
    String × Option Elem :=
  if targetDate - now ≤ 0 then
    (p.1, p.2.map fun el => { el with textContent := marker })
  else if p.1 = "days" then
    (p.1, p.2.map fun el => { el with textContent := fmtUnit (daysOf (targetDate - now).toNat) })
  else if p.1 = "hours" then
    (p.1, p.2.map fun el => { el with textContent := fmtUnit (hoursOf (targetDate - now).toNat) })
  else if p.1 = "minutes" then
    (p.1, p.2.map fun el => { el with textContent := fmtUnit (minutesOf (targetDate - now).toNat) })
  else if p.1 = "seconds" then
    (p.1, p.2.map fun el => { el with textContent := fmtUnit (secondsOf (targetDate - now).toNat) })
  else p

lemma updateCountdown_eq_map (t n : Int) (es : Elements) :
    updateCountdown t n es = es.map (renderEntry t n) := by
  by_cases hd : t - n ≤ 0
  · simp only [updateCountdown, if_pos hd]
    refine List.map_congr_left fun p _ => ?_
    simp only [renderEntry, if_pos hd]
  · simp only [updateCountdown, if_neg hd, setText, List.map_map]
    refine List.map_congr_left fun p _ => ?_
    obtain ⟨k, v⟩ := p
    simp only [Function.comp, renderEntry, if_neg hd]
    by_cases h1 : k = "days"
    · subst h1; simp [Option.map_map, Function.comp]
    · by_cases h2 : k = "hours"
      · subst h2; simp [Option.map_map, Function.comp]
      · by_cases h3 : k = "minutes"
        · subst h3; simp [Option.map_map, Function.comp]
        · by_cases h4 : k = "seconds"
          · subst h4; simp [Option.map_map, Function.comp]
          · simp [h1, h2, h3, h4]

lemma renderEntry_fst (t n : Int) (p : String × Option Elem) :
    (renderEntry t n p).1 = p.1 := by
  unfold renderEntry; split_ifs <;> rfl

lemma renderEntry_none (t n : Int) (p : String × Option Elem) (h : p.2 = none) :
    (renderEntry t n p).2 = none := by
  unfold renderEntry; split_ifs <;> simp [h]

/-- C2: for every target instant at or before the sampled current time
(`diff ≤ 0`, including exact equality), one call of the countdown renderer
writes exactly the fixed completion marker to every present slot, writes no
numeric value to any slot, and returns. -/
theorem updateCountdown_elapsed (t n : Int) (es : Elements) (h : t ≤ n) :
    updateCountdown t n es =
      es.map fun p => (p.1, p.2.map fun el => { el with textContent := marker }) := by
  simp only [updateCountdown, if_pos (show t - n ≤ 0 by omega)]

theorem updateCountdown_elapsed_witness :
    updateCountdown 0 0 [("days", some ⟨"x"⟩), ("greeting", some ⟨"y"⟩), ("hours", none)] =
      [("days", some ⟨marker⟩), ("greeting", some ⟨marker⟩), ("hours", none)] := by
  rw [updateCountdown_elapsed 0 0 _ (by decide)]
  rfl

/-- C5: once the target instant has passed at some tick (the elapsed state
is reached at sample `n0`), every subsequent invocation with a current-time
sample `n1 ≥ n0` again writes the same fixed completion marker to every
present slot: the elapsed state is terminal and re-applying it is
idempotent. -/
theorem updateCountdown_elapsed_terminal (t n0 n1 : Int) (es : Elements)
    (h0 : t ≤ n0) (h01 : n0 ≤ n1) :
    updateCountdown t n1 es =
      es.map fun p => (p.1, p.2.map fun el => { el with textContent := marker }) := by
  simp only [updateCountdown, if_pos (show t - n1 ≤ 0 by omega)]

theorem updateCountdown_elapsed_terminal_witness :
    updateCountdown 100 107 [("days", some ⟨"00"⟩), ("minutes", some ⟨"05"⟩)] =
      [("days", some ⟨marker⟩), ("minutes", some ⟨marker⟩)] := by
  rw [updateCountdown_elapsed_terminal 100 100 107 _ (by decide) (by decide)]
  rfl

lemma renderEntry_idem (t n : Int) (p : String × Option Elem) :
    renderEntry t n (renderEntry t n p) = renderEntry t n p := by
  obtain ⟨k, v⟩ := p
  by_cases hd : t - n ≤ 0
  · simp [renderEntry, hd, Option.map_map, Function.comp_def]
  · by_cases h1 : k = "days"
    · subst h1; simp [renderEntry, hd, Option.map_map, Function.comp_def]
    · by_cases h2 : k = "hours"
      · subst h2; simp [renderEntry, hd, h1, Option.map_map, Function.comp_def]
      · by_cases h3 : k = "minutes"
        · subst h3; simp [renderEntry, hd, h1, h2, Option.map_map, Function.comp_def]
        · by_cases h4 : k = "seconds"
          · subst h4; simp [renderEntry, hd, h1, h2, h3, Option.map_map, Function.comp_def]
          · simp [renderEntry, hd, h1, h2, h3, h4]

/-- C6: invoking the countdown renderer twice with the same current-time
sample writes identical output to every slot on both calls: the second
call, run on the slot set produced by the first, reproduces it exactly. -/
theorem updateCountdown_idempotent (t n : Int) (es : Elements) :
    updateCountdown t n (updateCountdown t n es) = updateCountdown t n es := by
  rw [updateCountdown_eq_map, updateCountdown_eq_map, List.map_map]
  refine List.map_congr_left fun p _ => ?_
  exact renderEntry_idem t n p

/-- C9: the two branches of the renderer touch different slot footprints.
One call equals a single pass of `renderEntry` over the slot set, and
`renderEntry` leaves every entry whose key is outside
`days`, `hours`, `minutes`, `seconds` unchanged when `diff > 0`, while for
`diff ≤ 0` it writes the marker to every non-null value regardless of its
key. -/
theorem updateCountdown_branch_footprint (t n : Int) (es : Elements) :
    updateCountdown t n es = es.map (renderEntry t n)
    ∧ (∀ p : String × Option Elem, 0 < t - n →
        p.1 ≠ "days" → p.1 ≠ "hours" → p.1 ≠ "minutes" → p.1 ≠ "seconds" →
        renderEntry t n p = p)
    ∧ (∀ p : String × Option Elem, t - n ≤ 0 →
        renderEntry t n p = (p.1, p.2.map fun el => { el with textContent := marker })) := by
  refine ⟨updateCountdown_eq_map t n es, fun p hpos h1 h2 h3 h4 => ?_, fun p hneg => ?_⟩
  · simp [renderEntry, h1, h2, h3, h4, show ¬t - n ≤ 0 by omega]
  · simp [renderEntry, hneg]

theorem updateCountdown_branch_footprint_witness :
    renderEntry 5 0 ("title", some ⟨"tick"⟩) = ("title", some ⟨"tick"⟩)
    ∧ renderEntry 5 5 ("title", some ⟨"tick"⟩) = ("title", some ⟨marker⟩) :=
  ⟨(updateCountdown_branch_footprint 5 0 []).2.1 ("title", some ⟨"tick"⟩)
      (by decide) (by decide) (by decide) (by decide) (by decide),
    (updateCountdown_branch_footprint 5 5 []).2.2 ("title", some ⟨"tick"⟩) (by decide)⟩

/-- C4: the renderer tolerates partly wired slot sets: it is a total
function that preserves the key of every entry, keeps every null (absent)
reference null, and on a slot set containing only `days` and `hours` it
never produces a `minutes` or `seconds` entry. -/
theorem updateCountdown_missing_slots (t n : Int) (es : Elements) :
    (updateCountdown t n es).map Prod.fst = es.map Prod.fst
    ∧ List.Forall₂ (fun p q : String × Option Elem =>
        p.1 = q.1 ∧ (p.2 = none → q.2 = none)) es (updateCountdown t n es)
    ∧ (∀ od oh : Option Elem, ∀ p ∈ updateCountdown t n [("days", od), ("hours", oh)],
        p.1 ≠ "minutes" ∧ p.1 ≠ "seconds") := by
  refine ⟨?_, ?_, ?_⟩
  · rw [updateCountdown_eq_map, List.map_map]
    exact List.map_congr_left fun p _ => renderEntry_fst t n p
  · rw [updateCountdown_eq_map, List.forall₂_map_right_iff]
    exact List.forall₂_same.mpr fun p _ =>
      ⟨(renderEntry_fst t n p).symm, fun h => renderEntry_none t n p h⟩
  · intro od oh p hp
    rw [updateCountdown_eq_map] at hp
    simp only [List.map_cons, List.map_nil, List.mem_cons, List.not_mem_nil,
      or_false] at hp
    rcases hp with hp | hp <;> subst hp <;>
      simp [renderEntry_fst]

theorem updateCountdown_missing_slots_witness :
    (updateCountdown 10 0 [("days", some ⟨"a"⟩), ("hours", none)]).map Prod.fst =
        ["days", "hours"]
    ∧ ("days" : String) ≠ "minutes" :=
  ⟨(updateCountdown_missing_slots 10 0 [("days", some ⟨"a"⟩), ("hours", none)]).1,
    ((updateCountdown_missing_slots 10 0 []).2.2 (some ⟨"a"⟩) none
        ("days", some ⟨"00"⟩) (by decide)).1⟩

/-- C1: for a target instant strictly in the future of the sampled current
time, the renderer computes four non-negative integers with hours in
`[0, 23]`, minutes in `[0, 59]` and seconds in `[0, 59]` by floor division
and moduli over `diff = targetInstant - now` in milliseconds, and their
reconstructed total millisecond duration equals `diff` to within one second
(1000 ms). -/
theorem updateCountdown_decomposition (t n : Int) (h : n < t) :
    hoursOf (t - n).toNat ≤ 23
    ∧ minutesOf (t - n).toNat ≤ 59
    ∧ secondsOf (t - n).toNat ≤ 59
    ∧ daysOf (t - n).toNat * 86400000 + hoursOf (t - n).toNat * 3600000
        + minutesOf (t - n).toNat * 60000 + secondsOf (t - n).toNat * 1000
        ≤ (t - n).toNat
    ∧ (t - n).toNat
        < daysOf (t - n).toNat * 86400000 + hoursOf (t - n).toNat * 3600000
          + minutesOf (t - n).toNat * 60000 + secondsOf (t - n).toNat * 1000
          + 1000
    ∧ ((t - n).toNat : Int) = t - n := by
  simp only [daysOf, hoursOf, minutesOf, secondsOf, msPerDay, msPerHour, msPerMinute]
  omega

theorem updateCountdown_decomposition_witness :
    hoursOf ((90061000 : Int) - 0).toNat ≤ 23
    ∧ minutesOf ((90061000 : Int) - 0).toNat ≤ 59
    ∧ secondsOf ((90061000 : Int) - 0).toNat ≤ 59
    ∧ daysOf ((90061000 : Int) - 0).toNat * 86400000
        + hoursOf ((90061000 : Int) - 0).toNat * 3600000
        + minutesOf ((90061000 : Int) - 0).toNat * 60000
        + secondsOf ((90061000 : Int) - 0).toNat * 1000
        ≤ ((90061000 : Int) - 0).toNat
    ∧ ((90061000 : Int) - 0).toNat
        < daysOf ((90061000 : Int) - 0).toNat * 86400000
          + hoursOf ((90061000 : Int) - 0).toNat * 3600000
          + minutesOf ((90061000 : Int) - 0).toNat * 60000
          + secondsOf ((90061000 : Int) - 0).toNat * 1000
          + 1000
    ∧ ((((90061000 : Int) - 0).toNat : Int)) = (90061000 : Int) - 0 :=
  updateCountdown_decomposition 90061000 0 (by decide)

lemma toDigitsCore_length (b : Nat) :
    ∀ (fuel n : Nat) (ds : List Char), 1 ≤ fuel →
      ds.length + 1 ≤ (Nat.toDigitsCore b fuel n ds).length := by
  intro fuel
  induction fuel with
  | zero => intro n ds h; omega
  | succ f ih =>
    intro n ds _
    rw [Nat.toDigitsCore]
    split
    · simp
    · rcases Nat.eq_zero_or_pos f with h0 | hf
      · subst h0
        rw [Nat.toDigitsCore]
        simp
      · calc ds.length + 1
            ≤ (Nat.digitChar (n % b) :: ds).length := by simp
          _ ≤ _ := Nat.le_of_succ_le (ih (n / b) (Nat.digitChar (n % b) :: ds) hf)

lemma repr_length_one (v : Nat) (h : v ≤ 9) : (toString v).length = 1 := by
  interval_cases v <;> rfl

lemma repr_length_two (v : Nat) (h : 10 ≤ v) : 2 ≤ (toString v).length := by
  show 2 ≤ (Nat.repr v).length
  rw [Nat.repr, Nat.toDigits, Nat.toDigitsCore]
  have hv : ¬v / 10 = 0 := by omega
  simp only [hv, if_false]
  have := toDigitsCore_length 10 v (v / 10) [Nat.digitChar (v % 10)] (by omega)
  simpa [List.asString] using this

lemma fmtUnit_of_two_le (v : Nat) (h2 : 2 ≤ (toString v).length) :
    fmtUnit v = toString v := by
  simp [fmtUnit, padStart, h2]

/-- C3: every computed unit value in `[0, 9]` is written as exactly two
digits (zero-padded at the start), and a value of 10 or more, such as a
large day count, is written untouched, never truncated. -/
theorem fmtUnit_formatting (v : Nat) :
    2 ≤ (fmtUnit v).length
    ∧ (v ≤ 9 → fmtUnit v = "0" ++ toString v ∧ (fmtUnit v).length = 2)
    ∧ (10 ≤ v → fmtUnit v = toString v) := by
  refine ⟨?_, fun h9 => ?_, fun h10 => ?_⟩
  · by_cases h : v ≤ 9
    · interval_cases v <;> decide
    · have h2 := repr_length_two v (by omega)
      rw [fmtUnit_of_two_le v h2]
      exact h2
  · constructor
    · interval_cases v <;> decide
    · interval_cases v <;> decide
  · exact fmtUnit_of_two_le v (repr_length_two v h10)

theorem fmtUnit_formatting_witness :
    fmtUnit 5 = "0" ++ toString 5 ∧ (fmtUnit 5).length = 2 ∧ fmtUnit 123 = toString 123 :=
  ⟨((fmtUnit_formatting 5).2.1 (by decide)).1, ((fmtUnit_formatting 5).2.1 (by decide)).2,
    (fmtUnit_formatting 123).2.2 (by decide)⟩

/-- A DOM image element: the one mutable field the cache-busting step
touches is its `src` URL. -/
structure Img where
  src : String
deriving DecidableEq

/-- `new Date().toISOString().split('T')[0]` (source line 150): the part of
the ISO timestamp before the first `T`, i.e. the calendar date. -/
def todayOf (iso : String) : String :=
  String.mk (iso.data.takeWhile fun c => c != 'T')

/-- `bustImageCache()` (source lines 148 to 156): appends the current
calendar date as a version query token to the two fixed image URLs,
writing each resulting URL to its image target when that target is
present, and skipping absent targets.  `iso` is the sampled current time
in ISO format. -/
def bustImageCache (iso : String) (usaImg dolImg : Option Img) :
    Option Img × Option Img :=
  let today := todayOf iso
  (usaImg.map fun i => { i with src := "images/usa-honeymoon.png?v=" ++ today },
   dolImg.map fun i => { i with src := "images/dolomites-minimoon.png?v=" ++ today })

lemma takeWhile_append_sentinel (p : Char → Bool) (x : Char) :
    ∀ (l r : List Char), (∀ c ∈ l, p c = true) → p x = false →
      List.takeWhile p (l ++ x :: r) = l := by
  intro l
  induction l with
  | nil =>
    intro r _ hx
    simp [List.takeWhile_cons, hx]
  | cons a l ih =>
    intro r hl hx
    rw [List.cons_append, List.takeWhile_cons, if_pos (hl a (by simp)),
      ih r (fun c hc => hl c (by simp [hc])) hx]

/-- C7: the cache-busting step writes, to each image target that is
present, the corresponding fixed image URL with the calendar-date portion
of the sampled ISO timestamp appended as a version query token; absent
targets are skipped. -/
theorem bustImageCache_spec (iso : String) (u d : Option Img) :
    (bustImageCache iso u d).1 =
        u.map (fun i => { i with src := "images/usa-honeymoon.png?v=" ++ todayOf iso })
    ∧ (bustImageCache iso u d).2 =
        d.map (fun i => { i with src := "images/dolomites-minimoon.png?v=" ++ todayOf iso })
    ∧ (u = none → (bustImageCache iso u d).1 = none)
    ∧ (d = none → (bustImageCache iso u d).2 = none)
    ∧ (∀ ds rest : List Char, 'T' ∉ ds →
        todayOf (String.mk (ds ++ 'T' :: rest)) = String.mk ds) := by
  refine ⟨rfl, rfl, fun hu => ?_, fun hd => ?_, fun ds rest hds => ?_⟩
  · simp [bustImageCache, hu]
  · simp [bustImageCache, hd]
  · have : List.takeWhile (fun c => c != 'T') (ds ++ 'T' :: rest) = ds := by
      refine takeWhile_append_sentinel _ 'T' ds rest (fun c hc => ?_) (by simp)
      simp only [bne_iff_ne, ne_eq, decide_eq_true_eq]
      exact fun h => hds (h ▸ hc)
    simp [todayOf, this]

theorem bustImageCache_spec_witness :
    (bustImageCache "2026-03-26T15:00:00.000Z" none (some ⟨"old"⟩)).1 = none
    ∧ todayOf (String.mk ("2026-03-26".data ++ 'T' :: "15:00:00.000Z".data)) =
        String.mk "2026-03-26".data :=
  ⟨(bustImageCache_spec "2026-03-26T15:00:00.000Z" none (some ⟨"old"⟩)).2.2.1 rfl,
    (bustImageCache_spec "x" none none).2.2.2.2 "2026-03-26".data "15:00:00.000Z".data
      (by decide)⟩

/-- The fixed colour palette of the particle generator (source lines 92 to
96). -/
def colors : List String :=
  ["rgba(255, 215, 0, 0.4)", "rgba(255, 107, 157, 0.3)", "rgba(255, 255, 255, 0.2)"]

/-- One generated particle element with the style attributes the generator
assigns (source lines 81 to 97).  Numeric style values are modelled as
rationals; `Math.random()` draws are an explicit stream `rnd`. -/
structure Particle where
  left : ℚ
  top : ℚ
  width : ℚ
  height : ℚ
  animationDuration : ℚ
  animationDelay : ℚ
  opacity : ℚ
  background : String

/-- `window.innerWidth < 768 ? 30 : 60` (source line 78). -/
def particleCount (innerWidth : ℚ) : Nat := if innerWidth < 768 then 30 else 60

/-- The particle built on loop iteration `i`, consuming the seven
`Math.random()` draws `rnd (7*i) .. rnd (7*i+6)` in source order (source
lines 81 to 97).  An out-of-range colour index can only arise from a draw
outside `[0, 1)` and falls back to the empty string. -/
def mkParticle (rnd : Nat → ℚ) (i : Nat) : Particle :=
  let w := rnd (7 * i + 2) * 3 + 1
  { left := rnd (7 * i) * 100
    top := rnd (7 * i + 1) * 100
    width := w
    height := w
    animationDuration := rnd (7 * i + 3) * 15 + 10
    animationDelay := rnd (7 * i + 4) * 10
    opacity := rnd (7 * i + 5) * (1 / 2) + 1 / 10
    background := colors.getD (⌊rnd (7 * i + 6) * 3⌋).toNat "" }

/-- The list of particles `createParticles()` builds (source lines 76 to
101), leaving the container write to `createParticlesInto`. -/
def createParticles (innerWidth : ℚ) (rnd : Nat → ℚ) : List Particle :=
  (List.range (particleCount innerWidth)).map (mkParticle rnd)

/-- `createParticles()` including its unguarded `container.appendChild`
call (source line 99): the container is `document.getElementById` output,
hence possibly null, and each loop iteration appends to it, throwing a
`TypeError` when it is null. -/
def createParticlesInto (innerWidth : ℚ) (rnd : Nat → ℚ)
    (container : Option (List Particle)) : Except String (Option (List Particle)) :=
  (List.range (particleCount innerWidth)).foldlM
    (fun c i =>
      match c with
      | none => Except.error "TypeError: Cannot read properties of null (reading appendChild)"
      | some ch => Except.ok (some (ch ++ [mkParticle rnd i])))
    container

/-- C8: the generator creates `particleCount innerWidth` elements, strictly
fewer below the width threshold 768 than at or above it, and when every
random draw lies in `[0, 1)` each element carries randomized style
attributes inside their source-determined ranges, with its background
drawn from the fixed palette. -/
theorem createParticles_spec (w w1 w2 : ℚ) (rnd : Nat → ℚ)
    (hr : ∀ k, 0 ≤ rnd k ∧ rnd k < 1) (h1 : w1 < 768) (h2 : 768 ≤ w2) :
    (createParticles w rnd).length = particleCount w
    ∧ (createParticles w1 rnd).length < (createParticles w2 rnd).length
    ∧ ∀ p ∈ createParticles w rnd,
        0 ≤ p.left ∧ p.left < 100
        ∧ 0 ≤ p.top ∧ p.top < 100
        ∧ 1 ≤ p.width ∧ p.width < 4 ∧ p.height = p.width
        ∧ 10 ≤ p.animationDuration ∧ p.animationDuration < 25
        ∧ 0 ≤ p.animationDelay ∧ p.animationDelay < 10
        ∧ 1 / 10 ≤ p.opacity ∧ p.opacity < 3 / 5
        ∧ p.background ∈ colors := by
  refine ⟨by simp [createParticles], ?_, ?_⟩
  · simp only [createParticles, List.length_map, List.length_range, particleCount,
      if_pos h1, if_neg (not_lt.mpr h2)]
    omega
  · intro p hp
    simp only [createParticles, List.mem_map, List.mem_range] at hp
    obtain ⟨i, _, rfl⟩ := hp
    obtain ⟨hl0, hl1⟩ := hr (7 * i)
    obtain ⟨ht0, ht1⟩ := hr (7 * i + 1)
    obtain ⟨hw0, hw1⟩ := hr (7 * i + 2)
    obtain ⟨hd0, hd1⟩ := hr (7 * i + 3)
    obtain ⟨hy0, hy1⟩ := hr (7 * i + 4)
    obtain ⟨ho0, ho1⟩ := hr (7 * i + 5)
    obtain ⟨hc0, hc1⟩ := hr (7 * i + 6)
    refine ⟨by simp [mkParticle]; linarith, by simp [mkParticle]; linarith,
      by simp [mkParticle]; linarith, by simp [mkParticle]; linarith,
      by simp [mkParticle]; linarith, by simp [mkParticle]; linarith,
      by simp [mkParticle],
      by simp [mkParticle]; linarith, by simp [mkParticle]; linarith,
      by simp [mkParticle]; linarith, by simp [mkParticle]; linarith,
      by simp [mkParticle]; linarith, by simp [mkParticle]; linarith, ?_⟩
    have hfl : ⌊rnd (7 * i + 6) * 3⌋ < 3 := by
      rw [Int.floor_lt]
      push_cast
      linarith
    have h3 : (⌊rnd (7 * i + 6) * 3⌋).toNat < 3 := by omega
    show colors.getD (⌊rnd (7 * i + 6) * 3⌋).toNat "" ∈ colors
    set k := (⌊rnd (7 * i + 6) * 3⌋).toNat with hk
    interval_cases k <;> decide

theorem createParticles_spec_witness :
    (createParticles 1024 (fun _ => 1 / 2)).length = particleCount 1024
    ∧ (createParticles 500 (fun _ => 1 / 2)).length <
        (createParticles 1024 (fun _ => 1 / 2)).length :=
  ⟨(createParticles_spec 1024 500 1024 (fun _ => 1 / 2)
      (fun _ => by norm_num) (by norm_num) (by norm_num)).1,
    (createParticles_spec 1024 500 1024 (fun _ => 1 / 2)
      (fun _ => by norm_num) (by norm_num) (by norm_num)).2.1⟩

/-- C10: unlike the countdown renderer and the cache-busting step, the
particle generator does not guard its output target: when the particle
container is absent (null), the first loop iteration throws a `TypeError`
instead of silently skipping. -/
theorem createParticlesInto_null_throws (innerWidth : ℚ) (rnd : Nat → ℚ) :
    createParticlesInto innerWidth rnd none =
      Except.error "TypeError: Cannot read properties of null (reading appendChild)" := by
  unfold createParticlesInto particleCount
  split <;> rfl

end LiveCTD
